import Mathlib

/-!
Shallow embedding of the Meeting Cost Ticker ledger (src/main.py).

Timestamps are modelled as rationals (seconds since an arbitrary epoch;
`datetime` differences in the source are microsecond-precision, hence exact
rationals), hourly rates as rationals, and the SQLite store as explicit
lists of Meeting and Attendee records together with the autoincrement
counters for the two primary keys.  Each route handler becomes a pure
function from the store (plus its form inputs and the wall clock) to the
updated store and the HTTP response it produces.
-/

namespace MeetingTicker

/-- The `meetings` table row (src/main.py lines 25-33). -/
structure Meeting where
  id : Nat
  startTime : ℚ
  endTime : Option ℚ
  isActive : Bool
  deriving Repr, DecidableEq

/-- The `attendees` table row (src/main.py lines 35-43). -/
structure Attendee where
  id : Nat
  meetingId : Nat
  name : String
  hourlyRate : ℚ
  deriving Repr, DecidableEq

/-- The SQLite database: both tables in rowid order plus the autoincrement
primary-key counters. -/
structure Store where
  meetings : List Meeting
  attendees : List Attendee
  nextMeetingId : Nat
  nextAttendeeId : Nat
  deriving Repr, DecidableEq

/-- A redirect response, as produced by the `/start` and `/stop` handlers. -/
inductive Response where
  | redirect (url : String) (status : Nat)
  deriving Repr, DecidableEq

/-- Python `str.strip()`: drop leading and trailing whitespace. -/
def strip (s : String) : String :=
  String.mk (((s.data.dropWhile Char.isWhitespace).reverse.dropWhile Char.isWhitespace).reverse)

/-- The filter condition of src/main.py line 88:
`if n.strip() and r >= 0` (a Python string is truthy iff non-empty). -/
def entryValid (p : String × ℚ) : Bool :=
  decide (strip p.1 ≠ "") && decide (0 ≤ p.2)

/-- Lines 86-89: `for n, r in zip(names, rates): if n.strip() and r >= 0:
valid_entries.append((n, r))`.  Python `zip` truncates to the shorter list. -/
def validEntries (names : List String) (rates : List ℚ) : List (String × ℚ) :=
  (names.zip rates).filter entryValid

/-- Lines 94-97: insert the new Meeting row and commit; `db.refresh`
exposes the autoincrement id, which we return alongside the store. -/
def insertMeeting (db : Store) (now : ℚ) : Store × Nat :=
  let mid := db.nextMeetingId
  ({ db with
      meetings := db.meetings ++ [{ id := mid, startTime := now, endTime := none, isActive := true }],
      nextMeetingId := mid + 1 },
   mid)

/-- Lines 99-101: insert one Attendee row per valid entry, in order. -/
def insertAttendees (db : Store) (mid : Nat) : List (String × ℚ) → Store
  | [] => db
  | (n, r) :: rest =>
      insertAttendees
        { db with
            attendees := db.attendees ++
              [{ id := db.nextAttendeeId, meetingId := mid, name := n, hourlyRate := r }],
            nextAttendeeId := db.nextAttendeeId + 1 }
        mid rest

/-- The `/start` handler, src/main.py lines 79-104. -/
def start_meeting (names : List String) (rates : List ℚ) (now : ℚ) (db : Store) :
    Store × Response :=
  let valid := validEntries names rates
  if valid.isEmpty then
    (db, .redirect "/setup" 303)
  else
    let db1 := (insertMeeting db now).1
    let mid := (insertMeeting db now).2
    (insertAttendees db1 mid valid, .redirect "/dashboard" 303)

/-- The committed store states produced by one `/start` call, in order:
line 96 commits after inserting the Meeting alone, line 103 commits again
after inserting the Attendees (two separate transactions). -/
def start_meeting_commits (names : List String) (rates : List ℚ) (now : ℚ) (db : Store) :
    List Store :=
  let valid := validEntries names rates
  if valid.isEmpty then
    []
  else
    let db1 := (insertMeeting db now).1
    let mid := (insertMeeting db now).2
    [db1, insertAttendees db1 mid valid]

/-- `db.query(Meeting).filter(Meeting.is_active == True).first()` in rowid
order (lines 67, 74, 108, 124). -/
def firstActive (db : Store) : Option Meeting :=
  db.meetings.find? (fun m => m.isActive)

/-- The `/stop` handler, src/main.py lines 122-130. -/
def stop_meeting (now : ℚ) (db : Store) : Store × Response :=
  match firstActive db with
  | some m =>
      ({ db with
          meetings := db.meetings.map (fun x =>
            if x.id = m.id then { x with isActive := false, endTime := some now } else x) },
       .redirect ("/summary/" ++ toString m.id) 303)
  | none => (db, .redirect "/" 303)

/-- `db.query(Meeting).filter(Meeting.id == meeting_id).first()` (line 134). -/
def findMeeting (db : Store) (mid : Nat) : Option Meeting :=
  db.meetings.find? (fun m => m.id == mid)

/-- `meeting.attendees`: the Attendee rows whose foreign key is this
meeting, in rowid order. -/
def attendeesOf (db : Store) (mid : Nat) : List Attendee :=
  db.attendees.filter (fun a => a.meetingId == mid)

/-- Python `f"{n:02d}"`: pad with zeros (after the sign) to width two. -/
def pad2 (n : Int) : String :=
  if n < 0 then
    let s := toString (-n)
    "-" ++ String.mk (List.replicate (1 - s.length) '0') ++ s
  else
    let s := toString n
    String.mk (List.replicate (2 - s.length) '0') ++ s

/-- `end = meeting.end_time or datetime.now()` (line 140): fall back to the
wall clock when `endTime` is unset. -/
def endOf (m : Meeting) (now : ℚ) : ℚ := m.endTime.getD now

/-- Lines 139-142: `duration_seconds = (end - start).total_seconds()`. -/
def duration_seconds (m : Meeting) (now : ℚ) : ℚ := endOf m now - m.startTime

/-- Lines 144-146: two chained float `divmod`s (floor division and floored
remainder) then `f"{int(hours):02d}:{int(minutes):02d}:{int(seconds):02d}"`.
Both remainders are non-negative, so Python `int` truncation is `⌊·⌋`. -/
def duration_str (ds : ℚ) : String :=
  let hours : ℤ := ⌊ds / 3600⌋
  let remainder : ℚ := ds - 3600 * (hours : ℚ)
  let minutes : ℤ := ⌊remainder / 60⌋
  let seconds : ℚ := remainder - 60 * (minutes : ℚ)
  pad2 hours ++ ":" ++ pad2 minutes ++ ":" ++ pad2 ⌊seconds⌋

/-- The data the summary template receives (lines 152-158). -/
structure SummaryView where
  durationStr : String
  totalCost : ℚ
  attendeeCount : Nat
  deriving Repr, DecidableEq

/-- Result of the `/summary/{meeting_id}` handler: a 404 or a rendered page. -/
inductive SummaryResult where
  | notFound
  | page (v : SummaryView)
  deriving Repr, DecidableEq

/-- The `/summary/{meeting_id}` handler, src/main.py lines 132-158. -/
def summary (mid : Nat) (now : ℚ) (db : Store) : Store × SummaryResult :=
  match findMeeting db mid with
  | none => (db, .notFound)
  | some m =>
      let ds := duration_seconds m now
      let totalRate := ((attendeesOf db mid).map (fun a => a.hourlyRate)).sum
      (db, .page
        { durationStr := duration_str ds,
          totalCost := ds / 3600 * totalRate,
          attendeeCount := (attendeesOf db mid).length })

/-- A store that has never seen a row: both tables empty, counters at 1
(SQLite autoincrement starts at 1). -/
def emptyStore : Store :=
  { meetings := [], attendees := [], nextMeetingId := 1, nextAttendeeId := 1 }

/-- A meeting as `/start` first records it: just created, still running. -/
def activeM1 : Meeting := { id := 1, startTime := 0, endTime := none, isActive := true }

/-- A store holding one running meeting with a single attendee. -/
def dbOneActive : Store :=
  { meetings := [activeM1],
    attendees := [{ id := 1, meetingId := 1, name := "Alice", hourlyRate := 10 }],
    nextMeetingId := 2, nextAttendeeId := 2 }

/-- A meeting stopped exactly one hour after it started. -/
def stoppedM1 : Meeting := { id := 1, startTime := 0, endTime := some 3600, isActive := false }

/-- A store holding one stopped one-hour meeting with attendees at rates 10 and 20. -/
def dbStopped1h : Store :=
  { meetings := [stoppedM1],
    attendees := [{ id := 1, meetingId := 1, name := "Alice", hourlyRate := 10 },
                  { id := 2, meetingId := 1, name := "Bob", hourlyRate := 20 }],
    nextMeetingId := 2, nextAttendeeId := 3 }

/-- Each meeting record is active in at most one copy: any two active rows of
the meetings table are the same row. -/
def AtMostOneActive (db : Store) : Prop :=
  ∀ m1 ∈ db.meetings, ∀ m2 ∈ db.meetings, m1.isActive = true → m2.isActive = true → m1 = m2

instance (db : Store) : Decidable (AtMostOneActive db) := by
  unfold AtMostOneActive
  infer_instance

/-- On an integer number of seconds, the divmod chain of `duration_str` is
integer division and remainder. -/
theorem duration_str_intCast (z : ℤ) :
    duration_str (z : ℚ) =
      pad2 (z / 3600) ++ ":" ++ pad2 (z % 3600 / 60) ++ ":" ++ pad2 (z % 3600 % 60) := by
  have h3600 : ((3600 : ℕ) : ℚ) = (3600 : ℚ) := by norm_num
  have hh : ⌊(z : ℚ) / 3600⌋ = z / 3600 := by
    rw [← h3600, Rat.floor_intCast_div_natCast]
    norm_num
  have hrem : (z : ℚ) - 3600 * ((z / 3600 : ℤ) : ℚ) = ((z % 3600 : ℤ) : ℚ) := by
    rw [Int.emod_def]
    push_cast
    ring
  have hm : ⌊((z % 3600 : ℤ) : ℚ) / 60⌋ = z % 3600 / 60 := by
    have h60 : ((60 : ℕ) : ℚ) = (60 : ℚ) := by norm_num
    rw [← h60, Rat.floor_intCast_div_natCast]
    norm_num
  have hsec : ((z % 3600 : ℤ) : ℚ) - 60 * ((z % 3600 / 60 : ℤ) : ℚ)
      = ((z % 3600 % 60 : ℤ) : ℚ) := by
    rw [Int.emod_def (z % 3600) 60]
    push_cast
    ring
  simp only [duration_str, hh, hrem, hm, hsec, Int.floor_intCast]

/-- Appending to the first list beyond the second's length does not change
`zip` (Python `zip` stops at the shorter input). -/
theorem zip_append_left_eq {α β : Type} :
    ∀ (l1 : List α) (l2 : List β) (extra : List α), l2.length ≤ l1.length →
      (l1 ++ extra).zip l2 = l1.zip l2 := by
  intro l1
  induction l1 with
  | nil =>
      intro l2 extra h
      have : l2 = [] := List.eq_nil_of_length_eq_zero (Nat.le_zero.mp h)
      subst this
      simp
  | cons a l1 ih =>
      intro l2 extra h
      cases l2 with
      | nil => simp
      | cons b l2 =>
          simp only [List.cons_append, List.zip_cons_cons, List.cons.injEq, true_and]
          exact ih l2 extra (Nat.le_of_succ_le_succ h)

/-- Appending to the second list beyond the first's length does not change
`zip`. -/
theorem zip_append_right_eq {α β : Type} :
    ∀ (l1 : List α) (l2 : List β) (extra : List β), l1.length ≤ l2.length →
      l1.zip (l2 ++ extra) = l1.zip l2 := by
  intro l1
  induction l1 with
  | nil => intro l2 extra _; simp
  | cons a l1 ih =>
      intro l2 extra h
      cases l2 with
      | nil => exact absurd h (by simp)
      | cons b l2 =>
          simp only [List.cons_append, List.zip_cons_cons, List.cons.injEq, true_and]
          exact ih l2 extra (Nat.le_of_succ_le_succ h)

/-- Inserting attendee rows for meeting `mid` appends exactly the given
(name, rate) pairs to the rows already tagged with `mid`. -/
theorem attendeesOf_insertAttendees :
    ∀ (entries : List (String × ℚ)) (db : Store) (mid : Nat),
      (attendeesOf (insertAttendees db mid entries) mid).map (fun a => (a.name, a.hourlyRate))
        = (attendeesOf db mid).map (fun a => (a.name, a.hourlyRate)) ++ entries := by
  intro entries
  induction entries with
  | nil => intro db mid; simp [insertAttendees]
  | cons e rest ih =>
      intro db mid
      obtain ⟨n, r⟩ := e
      rw [insertAttendees, ih]
      simp [attendeesOf, List.filter_append]

/-- With no active meeting in the store, `/stop` changes nothing and
redirects to the root page. -/
theorem stop_meeting_of_no_active (now : ℚ) (db : Store)
    (h : firstActive db = none) :
    stop_meeting now db = (db, Response.redirect "/" 303) := by
  simp [stop_meeting, h]

/-- A store whose attendee rows never reference `mid` has no attendees for
`mid`. -/
theorem attendeesOf_eq_nil (db : Store) (mid : Nat)
    (h : ∀ a ∈ db.attendees, a.meetingId ≠ mid) : attendeesOf db mid = [] := by
  simp only [attendeesOf]
  rw [List.filter_eq_nil_iff]
  intro a ha
  simpa using h a ha

/-- C1: the claim says at most one meeting is ever active, but `/start`
never checks for an existing active meeting: a second StartMeeting while one
is running leaves two meetings with `isActive = true` in the store. -/
theorem second_start_creates_two_active_meetings :
    (((start_meeting ["Bob"] [20] 5
          (start_meeting ["Alice"] [10] 0 emptyStore).1).1).meetings.filter
        (fun m => m.isActive)).length = 2 := by
  decide

/-- C3: the claim says the Meeting and its Attendees are persisted
atomically, but `/start` commits twice: the first committed state (head of
the commit trace) already holds the Meeting with zero attendee rows, and
only the second committed state (the last) is the final store. -/
theorem meeting_committed_before_attendees :
    (start_meeting_commits ["Alice"] [10] 0 emptyStore).head? =
      some { meetings := [{ id := 1, startTime := 0, endTime := none, isActive := true }],
             attendees := [], nextMeetingId := 2, nextAttendeeId := 1 } ∧
    attendeesOf { meetings := [{ id := 1, startTime := 0, endTime := none, isActive := true }],
                  attendees := [], nextMeetingId := 2, nextAttendeeId := 1 } 1 = [] ∧
    (start_meeting_commits ["Alice"] [10] 0 emptyStore).getLast? =
      some (start_meeting ["Alice"] [10] 0 emptyStore).1 := by
  refine ⟨by decide, by decide, by decide⟩

/-- C4 counterexample: `summary` computes `end - start` with no clamping, so
for a meeting whose `startTime` lies after the clock used as `end` the
duration is negative, contradicting the claimed clamp to `>= 0`. -/
theorem duration_seconds_negative_counterexample :
    duration_seconds (Meeting.mk 1 100 none true) 40 = -60 ∧
    ¬ (0 ≤ duration_seconds (Meeting.mk 1 100 none true) 40) := by
  constructor
  · simp only [duration_seconds, endOf]
    norm_num
  · simp only [duration_seconds, endOf]
    norm_num

/-- C4 amended: `durationSeconds` is exactly `end - startTime` with no
clamping; it is non-negative precisely when the end does not precede the
start, and negative otherwise. -/
theorem duration_seconds_unclamped (m : Meeting) (now : ℚ) :
    duration_seconds m now = endOf m now - m.startTime ∧
    (0 ≤ duration_seconds m now ↔ m.startTime ≤ endOf m now) :=
  ⟨rfl, sub_nonneg⟩

/-- C8: when every submitted (name, rate) pair has a blank stripped name or
a negative rate, `/start` redirects back to the setup page and leaves the
store exactly as it was: no Meeting and no Attendee rows are created. -/
theorem start_meeting_all_invalid_rejects
    (names : List String) (rates : List ℚ) (now : ℚ) (db : Store)
    (hall : ∀ p ∈ names.zip rates, strip p.1 = "" ∨ p.2 < 0) :
    start_meeting names rates now db = (db, Response.redirect "/setup" 303) := by
  have h : validEntries names rates = [] := by
    simp only [validEntries]
    rw [List.filter_eq_nil_iff]
    intro p hp
    rcases hall p hp with h1 | h2
    · simp [entryValid, h1]
    · simp [entryValid, not_le.mpr h2]
  simp [start_meeting, h]

/-- C8 witness: a submission whose first entry has a whitespace-only name
and whose second has a negative rate creates nothing. -/
theorem start_meeting_all_invalid_rejects_witness :
    start_meeting ["   ", "Bob"] [5, -1] 7 dbOneActive
      = (dbOneActive, Response.redirect "/setup" 303) :=
  start_meeting_all_invalid_rejects ["   ", "Bob"] [5, -1] 7 dbOneActive (by decide)

/-- C9: `summary` never writes: the store coming out of the call is the one
that went in, and for a still-active meeting (no `endTime`) the wall clock
`now` is substituted only inside the returned view, the stored record
staying untouched. -/
theorem summary_read_only_now_fallback (mid : Nat) (now : ℚ) (db : Store) :
    (summary mid now db).1 = db ∧
    (∀ m, findMeeting db mid = some m → m.endTime = none →
      (summary mid now db).2 = SummaryResult.page
        { durationStr := duration_str (now - m.startTime),
          totalCost := (now - m.startTime) / 3600 *
            ((attendeesOf db mid).map (fun a => a.hourlyRate)).sum,
          attendeeCount := (attendeesOf db mid).length } ∧
      findMeeting (summary mid now db).1 mid = some m) := by
  have hframe : (summary mid now db).1 = db := by
    unfold summary
    cases h : findMeeting db mid <;> simp
  refine ⟨hframe, ?_⟩
  intro m hm hend
  refine ⟨?_, by rw [hframe]; exact hm⟩
  simp [summary, hm, duration_seconds, endOf, hend]

/-- C9 witness: viewing the summary of the running meeting of
`dbOneActive` at time 60 changes nothing in the store and renders the view
with end time 60. -/
theorem summary_read_only_now_fallback_witness :
    (summary 1 60 dbOneActive).1 = dbOneActive ∧
    ((summary 1 60 dbOneActive).2 = SummaryResult.page
        { durationStr := duration_str (60 - activeM1.startTime),
          totalCost := (60 - activeM1.startTime) / 3600 *
            ((attendeesOf dbOneActive 1).map (fun a => a.hourlyRate)).sum,
          attendeeCount := (attendeesOf dbOneActive 1).length } ∧
      findMeeting (summary 1 60 dbOneActive).1 1 = some activeM1) :=
  ⟨(summary_read_only_now_fallback 1 60 dbOneActive).1,
   (summary_read_only_now_fallback 1 60 dbOneActive).2 activeM1 (by decide) (by decide)⟩

/-- C10: the two form lists are paired positionally and a length mismatch is
not an error: entries past the shorter list's length are dropped before the
validity filter, so appending extra names or extra rates changes nothing. -/
theorem start_meeting_ignores_unpaired_tail
    (names : List String) (rates : List ℚ) (extraNames : List String) (extraRates : List ℚ)
    (now : ℚ) (db : Store) (hlen : names.length = rates.length) :
    start_meeting (names ++ extraNames) rates now db = start_meeting names rates now db ∧
    start_meeting names (rates ++ extraRates) now db = start_meeting names rates now db := by
  have hz1 : (names ++ extraNames).zip rates = names.zip rates :=
    zip_append_left_eq names rates extraNames (le_of_eq hlen.symm)
  have hz2 : names.zip (rates ++ extraRates) = names.zip rates :=
    zip_append_right_eq names rates extraRates (le_of_eq hlen)
  constructor
  · simp only [start_meeting, validEntries, hz1]
  · simp only [start_meeting, validEntries, hz2]

/-- C10 witness: an extra unpaired name ("Ghost") or an extra unpaired rate
(99) leaves the outcome of `/start` unchanged. -/
theorem start_meeting_ignores_unpaired_tail_witness :
    start_meeting ["Alice", "Ghost"] [10] 0 emptyStore
        = start_meeting ["Alice"] [10] 0 emptyStore ∧
    start_meeting ["Alice"] [10, 99] 0 emptyStore
        = start_meeting ["Alice"] [10] 0 emptyStore := by
  have h := start_meeting_ignores_unpaired_tail ["Alice"] [10] ["Ghost"] [99] 0 emptyStore
    (by decide)
  simpa using h

/-- C5 counterexample: after a successful stop the second `/stop` call does
not return the same meeting id: the first call redirects to `/summary/1`,
the second finds no active meeting and redirects to `/` instead. -/
theorem stop_meeting_second_call_different_result :
    (stop_meeting 10 dbOneActive).2 = Response.redirect "/summary/1" 303 ∧
    (stop_meeting 20 (stop_meeting 10 dbOneActive).1).2 = Response.redirect "/" 303 ∧
    (stop_meeting 20 (stop_meeting 10 dbOneActive).1).2 ≠ (stop_meeting 10 dbOneActive).2 := by
  refine ⟨by decide, by decide, by decide⟩

/-- C5 amended: after a successful stop (in a store with at most one active
meeting) a second StopMeeting is a pure no-op on the store -- in particular
`endTime` is not re-stamped -- but instead of returning the same meeting id
it reports no active meeting by redirecting to the root page. -/
theorem stop_meeting_second_call_noop
    (db : Store) (now1 now2 : ℚ) (m : Meeting)
    (hone : AtMostOneActive db) (hm : firstActive db = some m) :
    stop_meeting now2 (stop_meeting now1 db).1
      = ((stop_meeting now1 db).1, Response.redirect "/" 303) := by
  have hmem : m ∈ db.meetings := List.mem_of_find?_eq_some hm
  have hact : m.isActive = true := List.find?_some hm
  have hnone : firstActive (stop_meeting now1 db).1 = none := by
    simp only [stop_meeting, hm]
    simp only [firstActive]
    rw [List.find?_eq_none]
    intro x hx
    obtain ⟨y, hy, rfl⟩ := List.mem_map.mp hx
    by_cases hid : y.id = m.id
    · simp [hid]
    · simp only [if_neg hid]
      intro hyact
      exact hid (congrArg Meeting.id (hone y hy m hmem hyact hact))
  exact stop_meeting_of_no_active now2 (stop_meeting now1 db).1 hnone

/-- C5 witness: in `dbOneActive` the second stop leaves the once-stopped
store untouched and redirects to the root. -/
theorem stop_meeting_second_call_noop_witness :
    stop_meeting 20 (stop_meeting 10 dbOneActive).1
      = ((stop_meeting 10 dbOneActive).1, Response.redirect "/" 303) :=
  stop_meeting_second_call_noop dbOneActive 10 20 activeM1 (by decide) (by decide)

/-- C2: on a successful `/start` the attendee rows stored for the new
meeting are, in submission order, exactly the zipped (name, rate) pairs
whose stripped name is non-empty and whose rate is at least 0. -/
theorem start_meeting_attendees_are_filtered_entries
    (names : List String) (rates : List ℚ) (now : ℚ) (db : Store)
    (hfresh : ∀ a ∈ db.attendees, a.meetingId ≠ db.nextMeetingId)
    (hne : validEntries names rates ≠ []) :
    (attendeesOf (start_meeting names rates now db).1 db.nextMeetingId).map
        (fun a => (a.name, a.hourlyRate))
      = (names.zip rates).filter (fun p => decide (strip p.1 ≠ "") && decide (0 ≤ p.2)) := by
  have hne' : (validEntries names rates).isEmpty = false := by
    rcases h : validEntries names rates with _ | ⟨p, l⟩
    · exact absurd h hne
    · rfl
  simp only [start_meeting, hne', Bool.false_eq_true, if_false]
  have hins : (insertMeeting db now).2 = db.nextMeetingId := rfl
  rw [hins, attendeesOf_insertAttendees]
  have hatt : attendeesOf (insertMeeting db now).1 db.nextMeetingId
      = attendeesOf db db.nextMeetingId := rfl
  rw [hatt, attendeesOf_eq_nil db db.nextMeetingId hfresh]
  simp only [List.map_nil, List.nil_append, validEntries]
  rfl

/-- C2 witness: of the four submitted names only three have a paired rate,
and of those only ("Alice", 10) survives the filter (blank name, negative
rate dropped); it is exactly what the new meeting's attendee rows hold. -/
theorem start_meeting_attendees_are_filtered_entries_witness :
    (attendeesOf (start_meeting ["Alice", "   ", "Bob", "Eve"] [10, 5, -3] 0 emptyStore).1
        emptyStore.nextMeetingId).map (fun a => (a.name, a.hourlyRate))
      = ((["Alice", "   ", "Bob", "Eve"].zip [10, 5, -3]).filter
          (fun p => decide (strip p.1 ≠ "") && decide (0 ≤ p.2))) :=
  start_meeting_attendees_are_filtered_entries ["Alice", "   ", "Bob", "Eve"] [10, 5, -3] 0
    emptyStore (by decide) (by decide)

/-- C6: the summary page's total cost is (durationSeconds / 3600) times the
sum of the attendees' hourly rates; concretely, the meeting of
`dbStopped1h`, stopped after exactly one hour with attendees at rates 10
and 20, costs exactly 30. -/
theorem summary_total_cost_formula :
    (∀ (db : Store) (mid : Nat) (now : ℚ) (m : Meeting), findMeeting db mid = some m →
      (summary mid now db).2 = SummaryResult.page
        { durationStr := duration_str (duration_seconds m now),
          totalCost := duration_seconds m now / 3600 *
            ((attendeesOf db mid).map (fun a => a.hourlyRate)).sum,
          attendeeCount := (attendeesOf db mid).length }) ∧
    (summary 1 9999 dbStopped1h).2 = SummaryResult.page
      { durationStr := "01:00:00", totalCost := 30, attendeeCount := 2 } := by
  constructor
  · intro db mid now m hm
    simp only [summary, hm]
  · have hfind : findMeeting dbStopped1h 1 = some stoppedM1 := by decide
    have hds : duration_seconds stoppedM1 9999 = ((3600 : ℤ) : ℚ) := by
      simp only [duration_seconds, endOf, stoppedM1, Option.getD_some]
      norm_num
    have hatt : attendeesOf dbStopped1h 1
        = [{ id := 1, meetingId := 1, name := "Alice", hourlyRate := 10 },
           { id := 2, meetingId := 1, name := "Bob", hourlyRate := 20 }] := by decide
    have hstr : duration_str (duration_seconds stoppedM1 9999) = "01:00:00" := by
      rw [hds, duration_str_intCast]
      decide
    have hcost : duration_seconds stoppedM1 9999 / 3600 *
        ((attendeesOf dbStopped1h 1).map (fun a => a.hourlyRate)).sum = 30 := by
      rw [hds, hatt]
      push_cast
      norm_num
    simp only [summary, hfind]
    rw [hstr, hcost, hatt]
    rfl

/-- C6 witness: the cost formula instantiated on the running meeting of
`dbOneActive` viewed at time 777. -/
theorem summary_total_cost_formula_witness :
    (summary 1 777 dbOneActive).2 = SummaryResult.page
      { durationStr := duration_str (duration_seconds activeM1 777),
        totalCost := duration_seconds activeM1 777 / 3600 *
          ((attendeesOf dbOneActive 1).map (fun a => a.hourlyRate)).sum,
        attendeeCount := (attendeesOf dbOneActive 1).length } :=
  summary_total_cost_formula.1 dbOneActive 1 777 activeM1 (by decide)

/-- The divmod chain of `duration_str` in closed form: the hour field is
the unwrapped `⌊ds / 3600⌋` and the minute and second fields are the
euclidean remainders mod 60 of `⌊ds / 60⌋` and `⌊ds⌋`. -/
theorem duration_str_eq_mod_form (ds : ℚ) :
    duration_str ds
      = pad2 ⌊ds / 3600⌋ ++ ":" ++ pad2 (⌊ds / 60⌋ % 60) ++ ":" ++ pad2 (⌊ds⌋ % 60) := by
  set h : ℤ := ⌊ds / 3600⌋ with hdef
  have hrem0 : 0 ≤ ds - 3600 * (h : ℚ) := by
    have h1 : (h : ℚ) ≤ ds / 3600 := Int.floor_le _
    have h2 : (h : ℚ) * 3600 ≤ ds := (le_div_iff₀ (by norm_num : (0:ℚ) < 3600)).mp h1
    linarith
  have hremlt : ds - 3600 * (h : ℚ) < 3600 := by
    have h1 : ds / 3600 < (h : ℚ) + 1 := Int.lt_floor_add_one _
    have h2 : ds < ((h : ℚ) + 1) * 3600 := (div_lt_iff₀ (by norm_num : (0:ℚ) < 3600)).mp h1
    linarith
  set rem : ℚ := ds - 3600 * (h : ℚ) with hremdef
  set mm : ℤ := ⌊rem / 60⌋ with hmmdef
  have hsec0 : 0 ≤ rem - 60 * (mm : ℚ) := by
    have h1 : (mm : ℚ) ≤ rem / 60 := Int.floor_le _
    have h2 : (mm : ℚ) * 60 ≤ rem := (le_div_iff₀ (by norm_num : (0:ℚ) < 60)).mp h1
    linarith
  have hseclt : rem - 60 * (mm : ℚ) < 60 := by
    have h1 : rem / 60 < (mm : ℚ) + 1 := Int.lt_floor_add_one _
    have h2 : rem < ((mm : ℚ) + 1) * 60 := (div_lt_iff₀ (by norm_num : (0:ℚ) < 60)).mp h1
    linarith
  set sec : ℚ := rem - 60 * (mm : ℚ) with hsecdef
  have hmm0 : 0 ≤ mm := by
    rw [hmmdef]
    exact Int.floor_nonneg.mpr (div_nonneg hrem0 (by norm_num))
  have hmmlt : mm < 60 := by
    rw [hmmdef]
    refine Int.floor_lt.mpr ?_
    rw [div_lt_iff₀ (by norm_num : (0:ℚ) < 60)]
    push_cast
    linarith
  have hss0 : 0 ≤ ⌊sec⌋ := Int.floor_nonneg.mpr hsec0
  have hsslt : ⌊sec⌋ < 60 := by
    refine Int.floor_lt.mpr ?_
    push_cast
    linarith
  have efrem : ⌊rem⌋ = ⌊ds⌋ - 3600 * h := by
    rw [hremdef, show (3600 : ℚ) * (h : ℚ) = ((3600 * h : ℤ) : ℚ) by push_cast; ring,
      Int.floor_sub_int]
  have efsec : ⌊sec⌋ = ⌊rem⌋ - 60 * mm := by
    rw [hsecdef, show (60 : ℚ) * (mm : ℚ) = ((60 * mm : ℤ) : ℚ) by push_cast; ring,
      Int.floor_sub_int]
  have ediv60 : ⌊ds / 60⌋ = 60 * h + mm := by
    have hq : ds / 60 = rem / 60 + ((60 * h : ℤ) : ℚ) := by
      rw [hremdef]
      push_cast
      ring
    rw [hq, Int.floor_add_int, ← hmmdef]
    omega
  have hmins : mm = ⌊ds / 60⌋ % 60 := by omega
  have hsecs : ⌊sec⌋ = ⌊ds⌋ % 60 := by omega
  calc duration_str ds = pad2 h ++ ":" ++ pad2 mm ++ ":" ++ pad2 ⌊sec⌋ := by
        simp only [duration_str]
    _ = pad2 ⌊ds / 3600⌋ ++ ":" ++ pad2 (⌊ds / 60⌋ % 60) ++ ":" ++ pad2 (⌊ds⌋ % 60) := by
        rw [hmins, hsecs, hdef]

/-- C7: for any non-negative duration, `duration_str` renders zero-padded
HH:MM:SS where the hour field is `⌊ds / 3600⌋` with no modulo (so it may
exceed 24: 108000 seconds renders "30:00:00") while the minute and second
fields, `⌊ds / 60⌋ % 60` and `⌊ds⌋ % 60`, are each wrapped below 60. -/
theorem duration_str_renders_hh_mm_ss :
    (∀ ds : ℚ, 0 ≤ ds →
      duration_str ds
          = pad2 ⌊ds / 3600⌋ ++ ":" ++ pad2 (⌊ds / 60⌋ % 60) ++ ":" ++ pad2 (⌊ds⌋ % 60) ∧
        0 ≤ ⌊ds / 60⌋ % 60 ∧ ⌊ds / 60⌋ % 60 < 60 ∧ 0 ≤ ⌊ds⌋ % 60 ∧ ⌊ds⌋ % 60 < 60) ∧
    duration_str 108000 = "30:00:00" := by
  constructor
  · intro ds _
    refine ⟨duration_str_eq_mod_form ds, ?_, ?_, ?_, ?_⟩ <;> omega
  · rw [show (108000 : ℚ) = ((108000 : ℤ) : ℚ) by norm_num, duration_str_intCast]
    decide

/-- C7 witness: the rendering property instantiated at 90 seconds
(one and a half minutes). -/
theorem duration_str_renders_hh_mm_ss_witness :
    (0 : ℚ) ≤ 90 ∧
    (duration_str 90
        = pad2 ⌊(90 : ℚ) / 3600⌋ ++ ":" ++ pad2 (⌊(90 : ℚ) / 60⌋ % 60) ++ ":"
            ++ pad2 (⌊(90 : ℚ)⌋ % 60) ∧
      0 ≤ ⌊(90 : ℚ) / 60⌋ % 60 ∧ ⌊(90 : ℚ) / 60⌋ % 60 < 60 ∧
      0 ≤ ⌊(90 : ℚ)⌋ % 60 ∧ ⌊(90 : ℚ)⌋ % 60 < 60) :=
  ⟨by decide, duration_str_renders_hh_mm_ss.1 90 (by decide)⟩

end MeetingTicker
